import Mathlib

/-!
Verification of the vector-collection access layer of the
`claude-code-vectordb` repository.

The repository's public surface is an MCP tool dispatcher
(`src/unnamed/part_004`), a CLI (`src/cli/vectordb-cli.ts`) and example
scripts, all of which call one class, `ProjectVectorDB`, living in
`src/lib/client.ts`. Only the callers ship in `src/`; the class itself is
described by the specification (sections 3, 4 and 7). Definitions below that
embed the missing class are therefore modelled from the spec and say so in
their doc comments; everything else is translated from the files in `src/`.

Floating-point scores and distances are modelled with `ℚ`; the backend's
distance function and the embedding provider are external collaborators and
appear as an explicit function parameter.
-/

/-- Document metadata: an open mapping with the recognized keys used by
filtering and statistics (spec section 3); `source` is required by the
`add_documents` tool schema in `part_004`, the rest are optional.
Unrecognized keys are preserved in `extra`. -/
structure DocumentMetadata where
  source : String
  category : Option String := none
  filePath : Option String := none
  title : Option String := none
  lastModified : Option String := none
  extra : List (String × String) := []
deriving DecidableEq, Repr

/-- A stored document: caller-assigned unique id, raw text content and
metadata (spec section 3). The embedding is derived, not stored here. -/
structure Doc where
  id : String
  content : String
  metadata : DocumentMetadata
deriving DecidableEq, Repr

/-- A collection is the backend's named set of documents; modelled as the
list of documents in backend scan order. -/
abbrev Collection := List Doc

/-- Error kinds of the access layer (spec section 7). -/
inductive VDBError where
  | connectionError
  | invalidArgument
  | providerMismatch
  | malformedBackupRecord
  | backendFailure
deriving DecidableEq, Repr

instance {ε α : Type} [DecidableEq ε] [DecidableEq α] :
    DecidableEq (Except ε α) := fun x y =>
  match x, y with
  | .ok a, .ok b =>
      if h : a = b then .isTrue (by rw [h])
      else .isFalse (by intro hh; injection hh; exact h (by assumption))
  | .ok _, .error _ => .isFalse (fun hh => Except.noConfusion hh)
  | .error _, .ok _ => .isFalse (fun hh => Except.noConfusion hh)
  | .error e, .error f =>
      if h : e = f then .isTrue (by rw [h])
      else .isFalse (by intro hh; injection hh; exact h (by assumption))

/-- Look a document up by id (the backend's get-by-id). -/
def lookupDoc (c : Collection) (i : String) : Option Doc :=
  c.find? (fun d => decide (d.id = i))

/-- Upsert semantics of the backend (spec section 3): re-using an id
overwrites the prior document, a fresh id appends. -/
def upsert (c : Collection) (d : Doc) : Collection :=
  match c with
  | [] => [d]
  | d' :: rest => if d'.id = d.id then d :: rest else d' :: upsert rest d

/-- Modelled from the spec (section 4.4): `addDocuments` embeds the batch and
upserts every document into the backend; `ProjectVectorDB.addDocuments` is
not under `src/` (only its callers are). Embedding is performed by the
external provider and does not change the stored (id, content, metadata). -/
def addDocuments (docs : List Doc) (c : Collection) : Collection :=
  docs.foldl upsert c

/-- Collection invariant: document ids are unique within a collection
(spec section 3, `id` is globally unique within a collection). -/
def NodupIds (c : Collection) : Prop :=
  (c.map (·.id)).Nodup

instance : DecidablePred NodupIds := fun c => by
  unfold NodupIds; infer_instance

/-- Modelled from the spec (section 4.7): `clearCollection` deletes every
document but requires an explicit `confirm = true`; when false or omitted it
is a no-op that reports the precondition failure (`InvalidArgument`).
`ProjectVectorDB.clearCollection` is not under `src/` (only its callers are).
The state is returned alongside the outcome so that the no-op is explicit. -/
def clearCollection (confirm : Option Bool) (c : Collection) :
    Except VDBError Unit × Collection :=
  if confirm = some true then (.ok (), [])
  else (.error .invalidArgument, c)

/-- One line of a backup file: a well-formed record, a blank line, or a
malformed line (spec sections 3 and 4.8). JSON (de)serialization itself is
external; a line is abstracted by its parse outcome. -/
inductive BackupLine where
  | record (d : Doc)
  | blank
  | malformed
deriving DecidableEq, Repr

/-- Modelled from the spec (section 4.8): `exportBackup` performs a full scan
and writes one backup record per line in backend scan order;
`ProjectVectorDB.exportBackup` is not under `src/` (only its callers are). -/
def exportBackup (c : Collection) : List BackupLine :=
  c.map .record

/-- Parse every line of a backup file, tolerating blank lines; any malformed
line makes the whole file invalid (spec section 4.8). -/
def parseBackup : List BackupLine → Option (List Doc)
  | [] => some []
  | .blank :: rest => parseBackup rest
  | .malformed :: _ => none
  | .record d :: rest => (parseBackup rest).map (d :: ·)

/-- Modelled from the spec (section 4.8): `importBackup` parses the file,
treats a malformed line as a fatal error for the whole restore before any
record is added (the section 8 test demands the document count unchanged on
failure), then clears first when `clearExisting` and re-adds every record via
the `addDocuments` path. `ProjectVectorDB.importBackup` is not under `src/`
(only its callers are). -/
def importBackup (file : List BackupLine) (clearExisting : Bool)
    (c : Collection) : Except VDBError Unit × Collection :=
  match parseBackup file with
  | none => (.error .malformedBackupRecord, c)
  | some docs =>
      let c0 := if clearExisting then (clearCollection (some true) c).2 else c
      (.ok (), addDocuments docs c0)

/-- The round trip of spec sections 4.8 and 8: export, clear with
confirmation, then import the exported file into the cleared collection. -/
def backupRoundTrip (c : Collection) : Except VDBError Unit × Collection :=
  let file := exportBackup c
  let c1 := (clearCollection (some true) c).2
  importBackup file false c1

/-- Query options (spec section 4.2 and the `query_vector_db` tool schema in
`part_004`): `limit` defaults to 5, `threshold` to 0.7, `category` and
`source` are optional exact-match predicates. -/
structure QueryOptions where
  limit : Option Nat := none
  threshold : Option ℚ := none
  category : Option String := none
  source : Option String := none
deriving DecidableEq, Repr

/-- A query result (spec section 3): content, metadata and similarity
score. -/
structure QueryResult where
  content : String
  metadata : DocumentMetadata
  score : ℚ
deriving DecidableEq, Repr

/-- The backend-side metadata predicate built from the options (spec section
4.2): exact match on `category` and `source`, applied before similarity
ranking. -/
def metaFilter (opts : QueryOptions) (d : Doc) : Bool :=
  (match opts.category with
   | none => true
   | some cat => decide (d.metadata.category = some cat)) &&
  (match opts.source with
   | none => true
   | some src => decide (d.metadata.source = src))

/-- Ordering of backend candidates by distance, nearest first. -/
def distLE (a b : Doc × ℚ) : Prop := a.2 ≤ b.2

instance : DecidableRel distLE := fun a b =>
  inferInstanceAs (Decidable (a.2 ≤ b.2))

instance : IsTotal (Doc × ℚ) distLE := ⟨fun a b => le_total a.2 b.2⟩

instance : IsTrans (Doc × ℚ) distLE := ⟨fun _ _ _ h h' => le_trans h h'⟩

/-- The backend's nearest-neighbor query (spec section 2, Vector Store
Backend): the documents passing the metadata predicate, ordered by the
distance between the query text's embedding and each document's embedding,
nearest first, truncated to the native top-k of `n` results. The composite
of embedding and distance metric is the external parameter `dist`. -/
def backendQuery (dist : String → Doc → ℚ) (c : Collection) (text : String)
    (n : Nat) (pred : Doc → Bool) : List (Doc × ℚ) :=
  (((c.filter pred).map (fun d => (d, dist text d))).insertionSort distLE).take n

/-- Modelled from the spec (section 4.2): `query` rejects empty text
(`InvalidArgument`), asks the backend for the native top-`limit` candidates
under the metadata predicate, converts each distance to a score `1 - d`, and
discards results with `score < threshold` after retrieval.
`ProjectVectorDB.query` is not under `src/` (only its callers are). -/
def query (dist : String → Doc → ℚ) (text : String) (opts : QueryOptions)
    (c : Collection) : Except VDBError (List QueryResult) :=
  if text = "" then .error .invalidArgument
  else
    let lim := opts.limit.getD 5
    let thr := opts.threshold.getD (7 / 10)
    let cands := backendQuery dist c text lim (metaFilter opts)
    let results := cands.map (fun p => ⟨p.1.content, p.1.metadata, 1 - p.2⟩)
    .ok (results.filter (fun r => decide (thr ≤ r.score)))

/-- Modelled from the spec (section 4.3): `searchByCategory` runs `query`
with the category predicate forced to the given category, keeping the other
options. `ProjectVectorDB.searchByCategory` is not under `src/` (only its
callers are). -/
def searchByCategory (dist : String → Doc → ℚ) (cat : String) (text : String)
    (opts : QueryOptions) (c : Collection) : Except VDBError (List QueryResult) :=
  query dist text
    { limit := opts.limit, threshold := opts.threshold,
      category := some cat, source := opts.source } c

/-- From `src/skills/vectordb-agent-skill/scripts/search.ts`,
`formatResults` (lines 54-58): the relevance score displayed for a result is
`1 - distance` when a distance is present and truthy; a missing distance, or
a distance of exactly 0 (falsy in JavaScript), displays as `N/A` (`none`). -/
def formatScore (distance : Option ℚ) : Option ℚ :=
  match distance with
  | none => none
  | some d => if d = 0 then none else some (1 - d)

/-- From `src/scripts/test-search.ts` (lines 44-46): the score printed for a
result is `1 - distance`, with no further adjustment. -/
def testSearchScore (distance : ℚ) : ℚ :=
  1 - distance

/-- Modelled from the spec (sections 4.1 and 9): the `ProjectVectorDB`
instance state — the immutable collection name, the ready flag guarding
`initialize`, whether the named collection exists at the backend, and its
contents. `src/lib/client.ts` is not under `src/` (only its callers are). -/
structure VectorDB where
  collectionName : String
  ready : Bool
  collectionExists : Bool
  collection : Collection
deriving DecidableEq, Repr

/-- Modelled from the spec (section 4.1): `initialize` establishes the
binding to the named collection, creating it if absent, and is guarded by the
internal ready flag so that every call after the first successful one is a
no-op. `ProjectVectorDB.initialize` is not under `src/` (only its callers
are); the guard shape matches `ensureInitialized` in `part_004`. (Named
`initializeVectorDB` here; the source method is named `initialize`.) -/
def initializeVectorDB (db : VectorDB) : VectorDB :=
  if db.ready then db
  else { db with ready := true, collectionExists := true }

/-- The MCP server's module state in `src/unnamed/part_004` (lines 32-38):
the `isInitialized` flag and the `vectorDB` instance. -/
structure McpServerState where
  isInitialized : Bool
  vectorDB : VectorDB
deriving DecidableEq, Repr

/-- From `src/unnamed/part_004` (lines 32-38): `ensureInitialized` calls
`vectorDB.initialize()` and sets the flag only when `isInitialized` is still
false. -/
def ensureInitialized (s : McpServerState) : McpServerState :=
  if s.isInitialized then s
  else { isInitialized := true, vectorDB := initializeVectorDB s.vectorDB }

/-- Collection statistics (spec section 4.5); the category and source
mappings are association lists from value to count. -/
structure CollectionStats where
  totalDocuments : Nat
  categories : List (String × Nat)
  sources : List (String × Nat)
  averageChunkSize : ℚ
  lastUpdated : String
deriving DecidableEq, Repr

/-- Increment the counter of `k` in an association list, starting it at 1
when absent. -/
def bumpCount (m : List (String × Nat)) (k : String) : List (String × Nat) :=
  match m with
  | [] => [(k, 1)]
  | (k', n) :: rest =>
      if k' = k then (k', n + 1) :: rest else (k', n) :: bumpCount rest k

/-- Read a counter from an association list, 0 when absent. -/
def lookupCount (m : List (String × Nat)) (k : String) : Nat :=
  match m.find? (fun p => decide (p.1 = k)) with
  | none => 0
  | some p => p.2

/-- Maximum of two optional timestamps (ISO-8601 strings compare
lexicographically). -/
def omax : Option String → Option String → Option String
  | none, b => b
  | some a, none => some a
  | some a, some b => some (max a b)

/-- Accumulator of the statistics scan: running count, per-category and
per-source counters, total content length, and latest timestamp seen. -/
structure StatsAcc where
  total : Nat
  categories : List (String × Nat)
  sources : List (String × Nat)
  contentLengthSum : Nat
  latest : Option String
deriving DecidableEq, Repr

/-- One step of the statistics scan over a document's metadata. -/
def scanDoc (acc : StatsAcc) (d : Doc) : StatsAcc :=
  { total := acc.total + 1,
    categories :=
      match d.metadata.category with
      | none => acc.categories
      | some cat => bumpCount acc.categories cat,
    sources := bumpCount acc.sources d.metadata.source,
    contentLengthSum := acc.contentLengthSum + d.content.length,
    latest := omax acc.latest d.metadata.lastModified }

/-- Modelled from the spec (section 4.5): `getStats` performs a full scan of
the collection's metadata and aggregates `totalDocuments`, the category and
source counters, the mean content length, and the latest `lastModified`
(falling back to the scan time `now` when no document carries one).
`ProjectVectorDB.getStats` is not under `src/` (only its callers are). -/
def getStats (c : Collection) (now : String) : CollectionStats :=
  let acc := c.foldl scanDoc ⟨0, [], [], 0, none⟩
  { totalDocuments := acc.total,
    categories := acc.categories,
    sources := acc.sources,
    averageChunkSize :=
      if acc.total = 0 then 0 else (acc.contentLengthSum : ℚ) / acc.total,
    lastUpdated := acc.latest.getD now }

/-- Spec-side count: how many documents carry the given category. -/
def categoryCount (c : Collection) (cat : String) : Nat :=
  (c.filter (fun d => decide (d.metadata.category = some cat))).length

/-- Spec-side count: how many documents carry the given source. -/
def sourceCount (c : Collection) (src : String) : Nat :=
  (c.filter (fun d => decide (d.metadata.source = src))).length

/-- Spec-side sum of `content.length` over the scan. -/
def contentLengthSum (c : Collection) : Nat :=
  (c.map (fun d => d.content.length)).sum

/-- The `lastModified` timestamps present in the collection, scan order. -/
def timestamps (c : Collection) : List String :=
  c.filterMap (fun d => d.metadata.lastModified)

/-- Folding `omax` over a list of timestamps, the shape the statistics scan
produces for `latest`. -/
def foldOmax (o : Option String) (ts : List String) : Option String :=
  ts.foldl (fun o t => omax o (some t)) o

/-- From `src/unnamed/part_004` (lines 406-411): the `restore_database` tool
destructures `clearExisting = false` from its arguments, so an invocation
without the flag calls `importBackup` with `clearExisting = false`. -/
def restoreDatabaseTool (file : List BackupLine) (clearExisting : Option Bool)
    (c : Collection) : Except VDBError Unit × Collection :=
  importBackup file (clearExisting.getD false) c

/-- From `src/cli/vectordb-cli.ts` (lines 182-197): the `restore` command
passes `options.clear || false` to `importBackup`, so without `--clear` the
restore runs with `clearExisting = false`. -/
def restoreCommand (file : List BackupLine) (clearFlag : Option Bool)
    (c : Collection) : Except VDBError Unit × Collection :=
  importBackup file (clearFlag.getD false) c

/-- The id set of the well-formed records in a backup file. -/
def backupIds (file : List BackupLine) : List String :=
  file.filterMap (fun l => match l with | .record d => some d.id | _ => none)

/-! Concrete sample data used by the witnesses. -/

/-- Sample metadata with every recognized key set. -/
def sampleMeta1 : DocumentMetadata :=
  { source := "docs", category := some "arch", filePath := some "docs/a.md",
    title := some "A", lastModified := some "2024-01-02" }

/-- Sample metadata with a different category, source and timestamp. -/
def sampleMeta2 : DocumentMetadata :=
  { source := "memory-bank", category := some "design",
    lastModified := some "2024-03-05" }

/-- A sample document. -/
def sampleDoc1 : Doc :=
  { id := "a-chunk-0", content := "alpha", metadata := sampleMeta1 }

/-- A second sample document. -/
def sampleDoc2 : Doc :=
  { id := "b-chunk-0", content := "beta", metadata := sampleMeta2 }

/-- A sample collection of two documents with distinct ids. -/
def sampleColl : Collection := [sampleDoc1, sampleDoc2]

/-- A sample backend distance function. -/
def sampleDist : String → Doc → ℚ :=
  fun _ d => if d.id = "a-chunk-0" then 1 / 10 else 1 / 5

/-- Concrete result list of the default query over the sample data. -/
def sampleQueryResults : List QueryResult :=
  [⟨"alpha", sampleMeta1, 9 / 10⟩, ⟨"beta", sampleMeta2, 4 / 5⟩]

/-- Concrete result list of the sample query at threshold `0.85`. -/
def sampleQueryResultsHigh : List QueryResult :=
  [⟨"alpha", sampleMeta1, 9 / 10⟩]

/-! Theorems settling the claims. -/

/-- C7: `clearCollection` invoked with `confirm = false` or with `confirm`
omitted deletes nothing — the collection is unchanged and the call reports
the precondition failure (`InvalidArgument`); only `confirm = true` deletes
every document. -/
theorem clearCollection_requires_confirm (c : Collection) :
    clearCollection none c = (.error .invalidArgument, c) ∧
    clearCollection (some false) c = (.error .invalidArgument, c) ∧
    clearCollection (some true) c = (.ok (), []) :=
  ⟨rfl, rfl, rfl⟩

/-- C9: after the first successful call, every further call to the
initialization routine is a no-op guarded by the ready flag, leaving the
collection binding (name) and the collection contents unchanged; the MCP
server's `ensureInitialized` guard (`part_004`, lines 32-38) is likewise
idempotent. -/
theorem initializeVectorDB_idempotent (db : VectorDB) (s : McpServerState) :
    initializeVectorDB (initializeVectorDB db) = initializeVectorDB db ∧
    (initializeVectorDB db).ready = true ∧
    (initializeVectorDB db).collection = db.collection ∧
    (initializeVectorDB db).collectionName = db.collectionName ∧
    (db.ready = true → initializeVectorDB db = db) ∧
    ensureInitialized (ensureInitialized s) = ensureInitialized s := by
  unfold initializeVectorDB ensureInitialized
  by_cases h : db.ready <;> by_cases h' : s.isInitialized <;> simp [h, h']

/-- Witness for C9 at a concrete instance and server state. -/
theorem initializeVectorDB_idempotent_witness :
    initializeVectorDB
        (initializeVectorDB ⟨"project-docs", false, false, []⟩) =
      initializeVectorDB ⟨"project-docs", false, false, []⟩ ∧
    ("project-docs" : String) = "project-docs" ∧
    initializeVectorDB ⟨"project-docs", true, true, sampleColl⟩ =
      ⟨"project-docs", true, true, sampleColl⟩ :=
  ⟨(initializeVectorDB_idempotent ⟨"project-docs", false, false, []⟩
      ⟨false, ⟨"project-docs", false, false, []⟩⟩).1,
   rfl,
   (initializeVectorDB_idempotent ⟨"project-docs", true, true, sampleColl⟩
      ⟨false, ⟨"project-docs", true, true, sampleColl⟩⟩).2.2.2.2.1 rfl⟩

/-- C5: `searchByCategory` returns exactly what `query` returns with the
category predicate forced to the given category, regardless of any
conflicting category value present in the options. -/
theorem searchByCategory_forces_category (dist : String → Doc → ℚ)
    (cat text : String) (opts : QueryOptions) (c : Collection) :
    searchByCategory dist cat text opts c =
      query dist text { opts with category := some cat } c :=
  rfl

/-- C4 counterexample: the score the repository's display code attaches to a
result is `1 - distance` with no clamping — for a backend distance of `3/2`
both `search.ts` and `test-search.ts` produce the score `-1/2`, which lies
outside `[0, 1]` and is returned as-is. -/
theorem score_not_clamped_counterexample :
    formatScore (some (3 / 2)) = some (-(1 / 2)) ∧
    testSearchScore (3 / 2) = -(1 / 2) ∧
    (-(1 / 2) : ℚ) < 0 := by
  refine ⟨?_, ?_, ?_⟩ <;> norm_num [formatScore, testSearchScore]

/-- C4 amended: the score attached to a result is `1 - distance`, returned
as-is without clamping, so it lies in `[0, 1]` exactly when the backend's
distance lies in `[0, 1]` (and in `search.ts` a missing or zero distance is
displayed as `N/A` rather than as a score). -/
theorem score_is_one_minus_distance (d : ℚ) (hd : d ≠ 0) :
    formatScore (some d) = some (1 - d) ∧
    testSearchScore d = 1 - d ∧
    (0 ≤ d → d ≤ 1 → 0 ≤ 1 - d ∧ 1 - d ≤ 1) := by
  refine ⟨by simp [formatScore, hd], rfl, fun h0 h1 => ⟨by linarith, by linarith⟩⟩

/-- Exporting a collection and parsing the exported file yields the same
documents back: serialization is faithful. -/
theorem parseBackup_exportBackup (c : Collection) :
    parseBackup (exportBackup c) = some c := by
  induction c with
  | nil => rfl
  | cons d rest ih => simp [exportBackup, parseBackup] at ih ⊢; exact ih

/-- Upserting a document whose id is absent from the collection appends
it. -/
theorem upsert_of_not_mem (c : Collection) (d : Doc)
    (h : ∀ a ∈ c, a.id ≠ d.id) : upsert c d = c ++ [d] := by
  induction c with
  | nil => rfl
  | cons a rest ih =>
      have ha : a.id ≠ d.id := h a (List.mem_cons_self a rest)
      simp only [upsert, if_neg ha, List.cons_append, List.cons.injEq, true_and]
      exact ih (fun b hb => h b (List.mem_cons_of_mem a hb))

/-- Adding a batch of documents with fresh, pairwise distinct ids appends
them in order. -/
theorem addDocuments_of_disjoint (docs : List Doc) (acc : Collection)
    (hdisj : ∀ a ∈ acc, ∀ d ∈ docs, a.id ≠ d.id) (hnodup : NodupIds docs) :
    addDocuments docs acc = acc ++ docs := by
  induction docs generalizing acc with
  | nil => simp [addDocuments]
  | cons d rest ih =>
      have hstep : upsert acc d = acc ++ [d] :=
        upsert_of_not_mem acc d
          (fun a ha => hdisj a ha d (List.mem_cons_self d rest))
      have hr : NodupIds rest := by
        simpa [NodupIds] using (List.nodup_cons.mp hnodup).2
      have hd : d.id ∉ rest.map (·.id) := by
        simpa [NodupIds] using (List.nodup_cons.mp hnodup).1
      have : addDocuments rest (acc ++ [d]) = (acc ++ [d]) ++ rest := by
        refine ih (acc ++ [d]) ?_ hr
        intro a ha e he
        rcases List.mem_append.mp ha with ha' | ha'
        · exact hdisj a ha' e (List.mem_cons_of_mem d he)
        · have : a = d := by simpa using ha'
          subst this
          intro hc
          exact hd (hc ▸ List.mem_map_of_mem (·.id) he)
      calc addDocuments (d :: rest) acc
          = addDocuments rest (upsert acc d) := rfl
        _ = addDocuments rest (acc ++ [d]) := by rw [hstep]
        _ = (acc ++ [d]) ++ rest := this
        _ = acc ++ d :: rest := by simp

/-- C1: for every collection state with the collection invariant (unique
ids), `exportBackup` then `clearCollection(true)` then `importBackup` of the
exported file succeeds and yields a collection whose document set (ids,
content, metadata) is set-equal to the original: every id looks up to the
same document as before. -/
theorem backupRoundTrip_preserves_docs (c : Collection) (h : NodupIds c) :
    (backupRoundTrip c).1 = .ok () ∧
    ∀ i, lookupDoc (backupRoundTrip c).2 i = lookupDoc c i := by
  have hres : backupRoundTrip c = (.ok (), c) := by
    unfold backupRoundTrip importBackup clearCollection
    simp only [parseBackup_exportBackup]
    simpa using addDocuments_of_disjoint c [] (by simp) h
  rw [hres]
  exact ⟨rfl, fun i => rfl⟩

/-- Witness for C1 on the sample collection. -/
theorem backupRoundTrip_preserves_docs_witness :
    NodupIds sampleColl ∧
    (backupRoundTrip sampleColl).1 = .ok () ∧
    lookupDoc (backupRoundTrip sampleColl).2 "a-chunk-0" =
      lookupDoc sampleColl "a-chunk-0" :=
  ⟨by decide,
   (backupRoundTrip_preserves_docs sampleColl (by decide)).1,
   (backupRoundTrip_preserves_docs sampleColl (by decide)).2 "a-chunk-0"⟩

/-- A file holding a malformed line never parses. -/
theorem parseBackup_of_malformed (file : List BackupLine)
    (h : BackupLine.malformed ∈ file) : parseBackup file = none := by
  induction file with
  | nil => cases h
  | cons l rest ih =>
      cases l with
      | malformed => rfl
      | blank =>
          have : BackupLine.malformed ∈ rest := by simpa using h
          simpa [parseBackup] using ih this
      | record d =>
          have : BackupLine.malformed ∈ rest := by simpa using h
          simp [parseBackup, ih this]

/-- C6: a malformed line in a backup file makes `importBackup` abort the
whole restore with the fatal `MalformedBackupRecord` error before any record
is added: the collection (hence its document count) is unchanged. -/
theorem importBackup_malformed_aborts (file : List BackupLine)
    (clearExisting : Bool) (c : Collection)
    (h : BackupLine.malformed ∈ file) :
    importBackup file clearExisting c = (.error .malformedBackupRecord, c) ∧
    (importBackup file clearExisting c).2.length = c.length := by
  unfold importBackup
  rw [parseBackup_of_malformed file h]
  exact ⟨rfl, rfl⟩

/-- Witness for C6: restoring a file whose second line is malformed leaves
the sample collection untouched. -/
theorem importBackup_malformed_aborts_witness :
    BackupLine.malformed ∈
      [BackupLine.record sampleDoc1, BackupLine.malformed] ∧
    importBackup [BackupLine.record sampleDoc1, BackupLine.malformed] false
        sampleColl =
      (.error .malformedBackupRecord, sampleColl) :=
  ⟨by decide,
   (importBackup_malformed_aborts
      [BackupLine.record sampleDoc1, BackupLine.malformed] false sampleColl
      (by decide)).1⟩

/-- Looking up an id different from the upserted document's id is
unaffected by the upsert. -/
theorem lookupDoc_upsert_ne (c : Collection) (d : Doc) (i : String)
    (h : i ≠ d.id) : lookupDoc (upsert c d) i = lookupDoc c i := by
  have hdi : ¬(d.id = i) := fun hc => h hc.symm
  induction c with
  | nil => simp [upsert, lookupDoc, List.find?, hdi]
  | cons a rest ih =>
      by_cases ha : a.id = d.id
      · have hai : ¬(a.id = i) := fun hc => h (hc.symm.trans ha)
        simp [upsert, ha, lookupDoc, List.find?, hai, hdi]
      · simp only [upsert, if_neg ha]
        by_cases hai : a.id = i
        · simp [lookupDoc, List.find?, hai]
        · simpa [lookupDoc, List.find?, hai] using ih

/-- Adding documents never touches a document whose id is not in the
batch. -/
theorem lookupDoc_addDocuments_ne (docs : List Doc) (c : Collection)
    (i : String) (h : i ∉ docs.map (·.id)) :
    lookupDoc (addDocuments docs c) i = lookupDoc c i := by
  induction docs generalizing c with
  | nil => rfl
  | cons d rest ih =>
      have hd : i ≠ d.id := fun hc => h (by simp [hc])
      have hrest : i ∉ rest.map (·.id) := fun hc => h (by simp [hc])
      calc lookupDoc (addDocuments (d :: rest) c) i
          = lookupDoc (addDocuments rest (upsert c d)) i := rfl
        _ = lookupDoc (upsert c d) i := ih (upsert c d) hrest
        _ = lookupDoc c i := lookupDoc_upsert_ne c d i hd

/-- The ids of a parsed backup file are exactly `backupIds`. -/
theorem backupIds_of_parse (file : List BackupLine) (docs : List Doc)
    (h : parseBackup file = some docs) :
    backupIds file = docs.map (·.id) := by
  induction file generalizing docs with
  | nil =>
      simp [parseBackup] at h
      simp [backupIds, ← h]
  | cons l rest ih =>
      cases l with
      | malformed => simp [parseBackup] at h
      | blank =>
          simp only [parseBackup] at h
          simpa [backupIds, List.filterMap] using ih docs h
      | record d =>
          simp only [parseBackup, Option.map_eq_some'] at h
          obtain ⟨ds, hds, rfl⟩ := h
          simpa [backupIds, List.filterMap] using ih ds hds

/-- C10: the `restore_database` tool and the CLI `restore` command invoked
without the clear flag call `importBackup` with `clearExisting = false`, and
then every document already in the collection whose id does not appear in
the backup file remains present and unchanged after the restore. -/
theorem restore_without_clear_preserves_other_docs (file : List BackupLine)
    (c : Collection) (i : String) (docs : List Doc)
    (hp : parseBackup file = some docs) (hi : i ∉ backupIds file) :
    restoreDatabaseTool file none c = importBackup file false c ∧
    restoreCommand file none c = importBackup file false c ∧
    (importBackup file false c).1 = .ok () ∧
    lookupDoc (importBackup file false c).2 i = lookupDoc c i := by
  refine ⟨rfl, rfl, ?_, ?_⟩
  · unfold importBackup
    rw [hp]
  · unfold importBackup
    rw [hp]
    simp only
    refine lookupDoc_addDocuments_ne docs c i ?_
    rw [← backupIds_of_parse file docs hp]
    exact hi

/-- Witness for C10: restoring a one-record file without the clear flag
leaves the other sample document in place. -/
theorem restore_without_clear_preserves_other_docs_witness :
    parseBackup [BackupLine.record sampleDoc1] = some [sampleDoc1] ∧
    ("b-chunk-0" : String) ∉ backupIds [BackupLine.record sampleDoc1] ∧
    lookupDoc (importBackup [BackupLine.record sampleDoc1] false
        sampleColl).2 "b-chunk-0" =
      lookupDoc sampleColl "b-chunk-0" :=
  ⟨by decide, by decide,
   (restore_without_clear_preserves_other_docs
      [BackupLine.record sampleDoc1] sampleColl "b-chunk-0" [sampleDoc1]
      (by decide) (by decide)).2.2.2⟩

/-- Filtering with a stronger predicate never yields a longer list. -/
theorem length_filter_implies {α : Type} (l : List α) (p q : α → Bool)
    (h : ∀ a, q a = true → p a = true) :
    (l.filter q).length ≤ (l.filter p).length := by
  induction l with
  | nil => simp
  | cons a rest ih =>
      by_cases hq : q a = true
      · simp [List.filter, hq, h a hq, Nat.succ_le_succ ih]
      · by_cases hp : p a = true <;>
          simp only [List.filter, hq, hp, Bool.false_eq_true, if_false,
            if_true, List.length_cons] <;> omega

/-- The backend's candidate list holds at most `n` entries and is ordered by
non-decreasing distance. -/
theorem backendQuery_take_sorted (dist : String → Doc → ℚ) (c : Collection)
    (text : String) (n : Nat) (pred : Doc → Bool) :
    (backendQuery dist c text n pred).length ≤ n ∧
    (backendQuery dist c text n pred).Pairwise distLE := by
  constructor
  · simp only [backendQuery]
    exact List.length_take_le n _
  · exact List.Pairwise.sublist (List.take_sublist _ _)
      (List.sorted_insertionSort distLE _)

/-- C2: for every query text and every limit of at least 1, `query` returns
at most `limit` results, and the returned sequence is sorted by
non-increasing score (highest score first). -/
theorem query_at_most_limit_sorted (dist : String → Doc → ℚ) (text : String)
    (opts : QueryOptions) (c : Collection) (rs : List QueryResult)
    (hlim : 1 ≤ opts.limit.getD 5)
    (h : query dist text opts c = .ok rs) :
    rs.length ≤ opts.limit.getD 5 ∧
    rs.Sorted (fun a b => b.score ≤ a.score) := by
  by_cases ht : text = ""
  · simp [query, ht] at h
  · simp only [query, ht, if_false, Except.ok.injEq] at h
    subst h
    obtain ⟨hlen, hsorted⟩ :=
      backendQuery_take_sorted dist c text (opts.limit.getD 5) (metaFilter opts)
    constructor
    · calc (List.filter _ (List.map _ _)).length
          ≤ (List.map (fun p : Doc × ℚ =>
              (⟨p.1.content, p.1.metadata, 1 - p.2⟩ : QueryResult)) _).length :=
            List.length_filter_le _ _
        _ = (backendQuery dist c text (opts.limit.getD 5)
              (metaFilter opts)).length := List.length_map _ _
        _ ≤ opts.limit.getD 5 := hlen
    · refine List.Pairwise.sublist (List.filter_sublist _) ?_
      refine List.Pairwise.map _ ?_ hsorted
      intro a b hab
      simpa using sub_le_sub_left hab 1

section

attribute [local semireducible] Rat.mul Rat.inv Rat.add Rat.sub

/-- Witness for C2 on the sample collection with the default options. -/
theorem query_at_most_limit_sorted_witness :
    (1 ≤ (({} : QueryOptions).limit.getD 5)) ∧
    query sampleDist "vector" {} sampleColl = .ok sampleQueryResults ∧
    sampleQueryResults.length ≤ (({} : QueryOptions).limit.getD 5) ∧
    sampleQueryResults.Sorted (fun a b => b.score ≤ a.score) :=
  ⟨by norm_num, by decide,
   (query_at_most_limit_sorted sampleDist "vector" {} sampleColl
      sampleQueryResults (by norm_num) (by decide)).1,
   (query_at_most_limit_sorted sampleDist "vector" {} sampleColl
      sampleQueryResults (by norm_num) (by decide)).2⟩

/-- C3: for every threshold in `[0, 1]`, every result returned by `query`
has `score ≥ threshold`, and for the same query text and limit, raising the
threshold never increases the number of results returned. -/
theorem query_threshold_filter_antitone (dist : String → Doc → ℚ)
    (text : String) (opts : QueryOptions) (c : Collection) :
    (∀ t : ℚ, 0 ≤ t → t ≤ 1 → ∀ rs : List QueryResult,
      query dist text { opts with threshold := some t } c = .ok rs →
      ∀ r ∈ rs, t ≤ r.score) ∧
    (∀ t1 t2 : ℚ, 0 ≤ t1 → t1 ≤ t2 → t2 ≤ 1 →
      ∀ rs1 rs2 : List QueryResult,
      query dist text { opts with threshold := some t1 } c = .ok rs1 →
      query dist text { opts with threshold := some t2 } c = .ok rs2 →
      rs2.length ≤ rs1.length) := by
  constructor
  · intro t _ _ rs h r hr
    by_cases ht : text = ""
    · simp [query, ht] at h
    · simp only [query, ht, if_false, Except.ok.injEq] at h
      subst h
      have := List.of_mem_filter hr
      exact of_decide_eq_true this
  · intro t1 t2 _ h12 _ rs1 rs2 h1 h2
    by_cases ht : text = ""
    · simp [query, ht] at h1
    · simp only [query, ht, if_false, Except.ok.injEq] at h1 h2
      subst h1; subst h2
      refine length_filter_implies _ _ _ ?_
      intro r hr
      have h2r : t2 ≤ r.score := of_decide_eq_true hr
      exact decide_eq_true (le_trans h12 h2r)

/-- Witness for C3: at threshold `0.7` both sample results pass and score at
least `0.7`; raising the threshold to `0.85` drops the result count from 2
to 1. -/
theorem query_threshold_filter_antitone_witness :
    (0 ≤ (7 / 10 : ℚ)) ∧ ((7 / 10 : ℚ) ≤ 85 / 100) ∧ ((85 / 100 : ℚ) ≤ 1) ∧
    query sampleDist "vector"
        { ({} : QueryOptions) with threshold := some (7 / 10) } sampleColl =
      .ok sampleQueryResults ∧
    query sampleDist "vector"
        { ({} : QueryOptions) with threshold := some (85 / 100) } sampleColl =
      .ok sampleQueryResultsHigh ∧
    ((7 : ℚ) / 10 ≤ (⟨"alpha", sampleMeta1, 9 / 10⟩ : QueryResult).score) ∧
    sampleQueryResultsHigh.length ≤ sampleQueryResults.length :=
  ⟨by norm_num, by norm_num, by norm_num, by decide, by decide,
   (query_threshold_filter_antitone sampleDist "vector" {} sampleColl).1
     (7 / 10) (by norm_num) (by norm_num) sampleQueryResults (by decide)
     ⟨"alpha", sampleMeta1, 9 / 10⟩ (by decide),
   (query_threshold_filter_antitone sampleDist "vector" {} sampleColl).2
     (7 / 10) (85 / 100) (by norm_num) (by norm_num) (by norm_num)
     sampleQueryResults sampleQueryResultsHigh (by decide) (by decide)⟩

end

/-- The statistics scan counts one document per step. -/
theorem statsFold_total (l : List Doc) (acc : StatsAcc) :
    (l.foldl scanDoc acc).total = acc.total + l.length := by
  induction l generalizing acc with
  | nil => simp
  | cons d rest ih =>
      have := ih (scanDoc acc d)
      simp only [List.foldl_cons] at this ⊢
      rw [this]
      simp [scanDoc]
      omega

/-- The statistics scan accumulates the total content length. -/
theorem statsFold_contentSum (l : List Doc) (acc : StatsAcc) :
    (l.foldl scanDoc acc).contentLengthSum =
      acc.contentLengthSum + contentLengthSum l := by
  induction l generalizing acc with
  | nil => simp [contentLengthSum]
  | cons d rest ih =>
      have := ih (scanDoc acc d)
      simp only [List.foldl_cons] at this ⊢
      rw [this]
      simp [scanDoc, contentLengthSum]
      omega

/-- Bumping a key's counter adds one to that key and leaves the others. -/
theorem lookupCount_bumpCount (m : List (String × Nat)) (k k' : String) :
    lookupCount (bumpCount m k) k' =
      lookupCount m k' + (if k' = k then 1 else 0) := by
  induction m with
  | nil =>
      by_cases h : k' = k
      · simp [bumpCount, lookupCount, List.find?, h]
      · have h' : ¬(k = k') := fun hc => h hc.symm
        simp [bumpCount, lookupCount, List.find?, h, h']
  | cons p rest ih =>
      obtain ⟨a, n⟩ := p
      by_cases hak : a = k
      · by_cases hak' : a = k'
        · have hk'k : k' = k := hak'.symm.trans hak
          simp [bumpCount, lookupCount, List.find?, hak, hak', hk'k]
        · have hk'k : ¬(k' = k) := fun hc => hak' (hak.trans hc.symm)
          have hkk' : ¬(k = k') := fun hc => hak' (hak.trans hc)
          simp [bumpCount, lookupCount, List.find?, hak, hak', hk'k, hkk']
      · by_cases hak' : a = k'
        · have hk'k : ¬(k' = k) := fun hc => hak (hak'.trans hc)
          simp [bumpCount, lookupCount, List.find?, hak, hak', hk'k]
        · simpa [bumpCount, lookupCount, List.find?, hak, hak'] using ih

/-- The statistics scan counts documents per category. -/
theorem statsFold_categories (l : List Doc) (acc : StatsAcc) (cat : String) :
    lookupCount (l.foldl scanDoc acc).categories cat =
      lookupCount acc.categories cat + categoryCount l cat := by
  induction l generalizing acc with
  | nil => simp [categoryCount]
  | cons d rest ih =>
      have hstep := ih (scanDoc acc d)
      simp only [List.foldl_cons] at hstep ⊢
      rw [hstep]
      cases hd : d.metadata.category with
      | none =>
          simp [scanDoc, hd, categoryCount, List.filter]
      | some cc =>
          simp only [scanDoc, hd, lookupCount_bumpCount]
          by_cases hcc : cc = cat
          · simp [categoryCount, List.filter, hd, hcc]
            omega
          · have hcc' : ¬(cat = cc) := fun hc => hcc hc.symm
            simp [categoryCount, List.filter, hd, hcc, hcc']

/-- The statistics scan counts documents per source. -/
theorem statsFold_sources (l : List Doc) (acc : StatsAcc) (src : String) :
    lookupCount (l.foldl scanDoc acc).sources src =
      lookupCount acc.sources src + sourceCount l src := by
  induction l generalizing acc with
  | nil => simp [sourceCount]
  | cons d rest ih =>
      have hstep := ih (scanDoc acc d)
      simp only [List.foldl_cons] at hstep ⊢
      rw [hstep]
      simp only [scanDoc, lookupCount_bumpCount]
      by_cases hs : d.metadata.source = src
      · simp [sourceCount, List.filter, hs]
        omega
      · have hs' : ¬(src = d.metadata.source) := fun hc => hs hc.symm
        simp [sourceCount, List.filter, hs, hs']

/-- A maximum with nothing on the right is the left operand. -/
theorem omax_none_right (o : Option String) : omax o none = o := by
  cases o <;> rfl

/-- The `latest` component of the statistics scan is the `omax` fold over
the timestamps present. -/
theorem statsFold_latest (l : List Doc) (acc : StatsAcc) :
    (l.foldl scanDoc acc).latest = foldOmax acc.latest (timestamps l) := by
  induction l generalizing acc with
  | nil => rfl
  | cons d rest ih =>
      simp only [List.foldl_cons]
      rw [ih (scanDoc acc d)]
      cases hd : d.metadata.lastModified with
      | none =>
          simp [scanDoc, hd, timestamps, List.filterMap_cons, omax_none_right,
            foldOmax]
      | some t =>
          simp [scanDoc, hd, timestamps, List.filterMap_cons, foldOmax, omax]

/-- Folding `omax` from a seed yields an upper bound of the seed and the
list that is either the seed or a list element. -/
theorem foldOmax_some (m : String) (ts : List String) :
    ∃ n, foldOmax (some m) ts = some n ∧ (n = m ∨ n ∈ ts) ∧ m ≤ n ∧
      ∀ t ∈ ts, t ≤ n := by
  induction ts generalizing m with
  | nil => exact ⟨m, rfl, Or.inl rfl, le_refl m, by simp⟩
  | cons t ts ih =>
      obtain ⟨n, h1, h2, h3, h4⟩ := ih (max m t)
      refine ⟨n, h1, ?_, le_trans (le_max_left m t) h3, ?_⟩
      · rcases h2 with h | h
        · rcases max_choice m t with hm | hm
          · exact Or.inl (h.trans hm)
          · exact Or.inr (by simp [h.trans hm])
        · exact Or.inr (List.mem_cons_of_mem t h)
      · intro u hu
        rcases List.mem_cons.mp hu with rfl | hu
        · exact le_trans (le_max_right m u) h3
        · exact h4 u hu

/-- Folding `omax` from an empty seed over a nonempty list yields a maximum
element of the list. -/
theorem foldOmax_none (ts : List String) (h : ts ≠ []) :
    ∃ n, foldOmax none ts = some n ∧ n ∈ ts ∧ ∀ t ∈ ts, t ≤ n := by
  cases ts with
  | nil => exact absurd rfl h
  | cons t ts =>
      obtain ⟨n, h1, h2, h3, h4⟩ := foldOmax_some t ts
      refine ⟨n, h1, ?_, ?_⟩
      · rcases h2 with h' | h'
        · exact h' ▸ List.mem_cons_self t ts
        · exact List.mem_cons_of_mem t h'
      · intro u hu
        rcases List.mem_cons.mp hu with rfl | hu
        · exact h3
        · exact h4 u hu

/-- C8: `getStats` returns `totalDocuments` equal to the full-scan document
count, per-category and per-source counts matching the full scan,
`averageChunkSize` equal to the mean content length over all documents, and
`lastUpdated` equal to the maximum `lastModified` across documents, or the
scan time when none is present. -/
theorem getStats_spec (c : Collection) (now : String) :
    (getStats c now).totalDocuments = c.length ∧
    (∀ cat, lookupCount (getStats c now).categories cat =
      categoryCount c cat) ∧
    (∀ src, lookupCount (getStats c now).sources src = sourceCount c src) ∧
    (c ≠ [] → (getStats c now).averageChunkSize =
      (contentLengthSum c : ℚ) / (c.length : ℚ)) ∧
    (timestamps c = [] → (getStats c now).lastUpdated = now) ∧
    (timestamps c ≠ [] → (getStats c now).lastUpdated ∈ timestamps c ∧
      ∀ t ∈ timestamps c, t ≤ (getStats c now).lastUpdated) := by
  have htot : (c.foldl scanDoc ⟨0, [], [], 0, none⟩).total = c.length := by
    simpa using statsFold_total c ⟨0, [], [], 0, none⟩
  have hsum : (c.foldl scanDoc ⟨0, [], [], 0, none⟩).contentLengthSum =
      contentLengthSum c := by
    simpa using statsFold_contentSum c ⟨0, [], [], 0, none⟩
  have hlatest : (c.foldl scanDoc ⟨0, [], [], 0, none⟩).latest =
      foldOmax none (timestamps c) := by
    simpa using statsFold_latest c ⟨0, [], [], 0, none⟩
  refine ⟨htot, ?_, ?_, ?_, ?_, ?_⟩
  · intro cat
    simpa [getStats, lookupCount] using
      statsFold_categories c ⟨0, [], [], 0, none⟩ cat
  · intro src
    simpa [getStats, lookupCount] using
      statsFold_sources c ⟨0, [], [], 0, none⟩ src
  · intro hne
    have hlen : c.length ≠ 0 := fun hc => hne (List.length_eq_zero.mp hc)
    simp only [getStats, htot, hsum, if_neg hlen]
  · intro hts
    simp only [getStats, hlatest, hts, foldOmax, List.foldl_nil,
      Option.getD_none]
  · intro hts
    obtain ⟨n, h1, h2, h3⟩ := foldOmax_none (timestamps c) hts
    constructor
    · simpa [getStats, hlatest, h1] using h2
    · intro t ht
      simpa [getStats, hlatest, h1] using h3 t ht

/-- Witness for C8 on the sample collection. -/
theorem getStats_spec_witness :
    sampleColl ≠ [] ∧ timestamps sampleColl ≠ [] ∧
    (getStats sampleColl "2024-06-01").totalDocuments = sampleColl.length ∧
    (getStats sampleColl "2024-06-01").averageChunkSize =
      (contentLengthSum sampleColl : ℚ) / (sampleColl.length : ℚ) ∧
    (getStats sampleColl "2024-06-01").lastUpdated ∈ timestamps sampleColl :=
  ⟨by decide, by decide,
   (getStats_spec sampleColl "2024-06-01").1,
   (getStats_spec sampleColl "2024-06-01").2.2.2.1 (by decide),
   ((getStats_spec sampleColl "2024-06-01").2.2.2.2.2 (by decide)).1⟩

/-- Witness for the amended C4 at distance `3/4`. -/
theorem score_is_one_minus_distance_witness :
    ((3 : ℚ) / 4 ≠ 0) ∧ formatScore (some (3 / 4)) = some (1 - 3 / 4) ∧
    (0 ≤ (1 : ℚ) - 3 / 4 ∧ (1 : ℚ) - 3 / 4 ≤ 1) :=
  ⟨by norm_num,
   (score_is_one_minus_distance (3 / 4) (by norm_num)).1,
   (score_is_one_minus_distance (3 / 4) (by norm_num)).2.2
     (by norm_num) (by norm_num)⟩
